import Mathlib

/-!
Verification development for the `veem-invoice-ai-refactor` payment workflow
(`apps/invoice-mcp-server/src/veem_invoice_mcp/domain/payments/workflow.py`,
`.../domain/payments/tools.py`, and the store adapters).

The Python source is embedded shallowly:

* JSON-ish string fields of provider records distinguish an absent key, an
  explicit `null`, and a string value (`PyStr`), because the source mixes
  `d.get(k)` (absent/null ↦ `None`) with `str(d.get(k, ""))` (absent ↦ `""`,
  null ↦ `"None"`).
* Python truthiness (`if x:`) is modelled explicitly: `None`, `""`, and `0.0`
  are falsy.
* Python `float` amounts and the literal match-confidence scores are modelled
  as exact rationals.  Every score used by the code is one of
  `0, 0.6, 0.8, 0.95, 1.0`; their order and equalities agree with the binary
  floats the source computes, and `float` zero-ness (the only thing truthiness
  depends on) is preserved by the decimal-to-rational reading.
* String handling (`strip`, `lower`, `\s`, `\w`) is modelled over the ASCII
  character classes Python uses for ASCII input; the claims and the source
  only exercise ASCII data.
* Suspendable calls to external collaborators become explicit parameters, and
  the calls actually issued are returned as a log, so "collaborator not
  invoked" is a statement about the log.
* `uuid.uuid4()` results are fresh tokens supplied by the environment.
-/

namespace VeemInvoice

/-! ## Python-style optional strings and truthiness -/

/-- A string-valued entry of a provider JSON record: the key may be absent,
explicitly `null`, or carry a string.  The distinction matters because the
source reads such entries both with `d.get(k)` and with `str(d.get(k, ""))`. -/
inductive PyStr where
  | absent
  | null
  | val (s : String)
deriving DecidableEq, Repr

/-- Python truthiness of the entry: only a non-empty string is truthy. -/
def PyStr.truthy : PyStr → Bool
  | .val s => s ≠ ""
  | _ => false

/-- The value `d.get(k)` produces, as an option (`None` for absent or null). -/
def PyStr.asOpt : PyStr → Option String
  | .val s => some s
  | _ => none

/-- The string `str(d.get(k, ""))` produces: `""` when the key is absent,
`"None"` when the value is null (Python stringifies `None`), else the value. -/
def PyStr.getDefStr : PyStr → String
  | .absent => ""
  | .null => "None"
  | .val s => s

/-- The payload of a truthy `PyStr` (only used under a truthiness guard). -/
def PyStr.unval : PyStr → String
  | .val s => s
  | _ => ""

/-- Python `a or b` on two optional strings (`a` wins when truthy). -/
def pyOrS (a b : Option String) : Option String :=
  if a.getD "" ≠ "" then a else b

/-- Python truthiness of an optional string. -/
def truthyS (a : Option String) : Bool :=
  a.getD "" ≠ ""

/-- Python truthiness of an optional float amount (`None` and `0.0` falsy). -/
def truthyQ (a : Option ℚ) : Bool :=
  match a with
  | some q => q ≠ 0
  | none => false

/-- Python `a or b` on two optional amounts. -/
def pyOrQ (a b : Option ℚ) : Option ℚ :=
  if truthyQ a then a else b

/-- The literal score `0.95`, written with `mkRat` so that the kernel can
evaluate it (the generic field operations on `ℚ` do not reduce). -/
def q095 : ℚ := mkRat 19 20

/-- The literal score `0.8`. -/
def q08 : ℚ := mkRat 4 5

/-- The literal score `0.6`. -/
def q06 : ℚ := mkRat 3 5

/-- Python `a or b` on two JSON string entries (used for
`c.get("name") or c.get("displayName")`). -/
def PyStr.pyOr (a b : PyStr) : PyStr :=
  if a.truthy then a else b

/-! ## ASCII string helpers mirroring the Python string operations -/

/-- Python `\s` / `str.strip()` whitespace, ASCII fragment. -/
def isPySpace (c : Char) : Bool :=
  c = ' ' || c = '\t' || c = '\n' || c = '\r' || c = '\x0b' || c = '\x0c'

/-- `str.strip(chars)`: drop leading and trailing characters satisfying `p`. -/
def stripSet (p : Char → Bool) (l : List Char) : List Char :=
  ((l.dropWhile p).reverse.dropWhile p).reverse

/-- `str.strip()` on a character list. -/
def pyStrip (l : List Char) : List Char :=
  stripSet isPySpace l

/-- `re.sub(r"\s+", " ", s)`: replace each maximal whitespace run by `' '`. -/
def collapseWs : List Char → List Char
  | [] => []
  | [c] => [if isPySpace c then ' ' else c]
  | c :: c' :: cs =>
    if isPySpace c && isPySpace c' then collapseWs (c' :: cs)
    else (if isPySpace c then ' ' else c) :: collapseWs (c' :: cs)

/-- `workflow._normalize`: `re.sub(r"\s+", " ", s.strip().lower())`. -/
def pyNormalize (s : String) : String :=
  ⟨collapseWs ((pyStrip s.data).map Char.toLower)⟩

/-- Python substring containment `needle in hay` on character lists
(the empty needle is contained in everything, as in Python). -/
def listContainsSub (needle hay : List Char) : Bool :=
  (List.range (hay.length + 1)).any fun i => needle.isPrefixOf (hay.drop i)

/-- Python `needle in hay` on strings. -/
def isSubstr (needle hay : String) : Bool :=
  listContainsSub needle.data hay.data

/-- Helper for `str.split()`: accumulate the current token (reversed). -/
def wsTokensAux : List Char → List Char → List (List Char)
  | [], acc => if acc.isEmpty then [] else [acc.reverse]
  | c :: cs, acc =>
    if isPySpace c then
      if acc.isEmpty then wsTokensAux cs [] else acc.reverse :: wsTokensAux cs []
    else wsTokensAux cs (c :: acc)

/-- Python `s.split()`: whitespace-delimited tokens, empties discarded. -/
def pyTokens (s : String) : List String :=
  (wsTokensAux s.data []).map fun l => ⟨l⟩

/-- ASCII lowercase of a whole string (Python `str.lower()` on ASCII data). -/
def lowerStr (s : String) : String :=
  ⟨s.data.map Char.toLower⟩

/-! ## Data model (`domain/payments/models.py`) -/

/-- A contact record from the provider's contact directory, restricted to the
keys the workflow reads (`id`, `contactId`, `name`, `displayName`, `email`).
Other keys of the raw record are never consulted by the source and are
omitted; non-dict items of the payload (which the source filters out) and the
payload-wrapping key names are likewise handled before this representation. -/
structure Contact where
  id : PyStr := .absent
  contactId : PyStr := .absent
  name : PyStr := .absent
  displayName : PyStr := .absent
  email : PyStr := .absent
deriving DecidableEq, Repr

/-- `str(c.get("id") or c.get("contactId") or "")`. -/
def contactIdStr (c : Contact) : String :=
  if c.id.truthy then c.id.unval
  else if c.contactId.truthy then c.contactId.unval
  else ""

/-- `str(c.get("name") or c.get("displayName") or "")`. -/
def contactNameStr (c : Contact) : String :=
  if c.name.truthy then c.name.unval
  else if c.displayName.truthy then c.displayName.unval
  else ""

/-- `models.ResolvedPayee`. -/
structure ResolvedPayee where
  contact_id : Option String := none
  name : Option String := none
  email : Option String := none
  match_confidence : ℚ := 0
  candidates : List Contact := []
deriving DecidableEq, Repr

/-! ## Payee resolution (`workflow._best_contact_match`) -/

/-- The email comparison of the exact-match scan:
`_normalize(str(c.get("email", ""))) == _normalize(email)`. -/
def emailMatches (e : String) (c : Contact) : Bool :=
  pyNormalize c.email.getDefStr == pyNormalize e

/-- The `ResolvedPayee` built on an exact email hit (workflow lines 40-46). -/
def emailHit (c : Contact) : ResolvedPayee :=
  { contact_id := some (contactIdStr c)
    name := (c.name.pyOr c.displayName).asOpt
    email := c.email.asOpt
    match_confidence := 1
    candidates := [c] }

/-- The score the fuzzy name matcher assigns to a (normalized) contact name
`cn` against the normalized hint `n` (workflow lines 56-62). -/
def scoreOf (n cn : String) : ℚ :=
  if cn = n then q095
  else if isSubstr n cn || isSubstr cn n then q08
  else if (pyTokens n).any (fun tok => isSubstr tok cn) then q06
  else 0

/-- The scored candidate list (workflow lines 51-64): contacts whose
normalized display name is empty are skipped, and only positive scores are
kept, in input order. -/
def scoredList (n : String) (contacts : List Contact) : List (ℚ × Contact) :=
  contacts.filterMap fun c =>
    let cn := pyNormalize (contactNameStr c)
    if cn = "" then none
    else if 0 < scoreOf n cn then some (scoreOf n cn, c) else none

/-- Insert into a descending-by-score list, after entries with a score `≥`
the new one: the stable insertion step of `list.sort(key=score, reverse=True)`. -/
def insertDesc (x : ℚ × Contact) : List (ℚ × Contact) → List (ℚ × Contact)
  | [] => [x]
  | y :: ys => if y.1 ≤ x.1 then x :: y :: ys else y :: insertDesc x ys

/-- Stable descending sort by score (`scored.sort(key=lambda x: x[0],
reverse=True)`; Python's sort is stable). -/
def sortDesc (l : List (ℚ × Contact)) : List (ℚ × Contact) :=
  l.foldr insertDesc []

/-- The `ResolvedPayee` built from the top-scored contact (lines 66-75). -/
def topHit (top : ℚ × Contact) (cands : List Contact) : ResolvedPayee :=
  { contact_id := some (contactIdStr top.2)
    name := (top.2.name.pyOr top.2.displayName).asOpt
    email := top.2.email.asOpt
    match_confidence := top.1
    candidates := cands }

/-- The no-match fallback (lines 77-84). -/
def noMatch (nameHint emailHint : Option String) (contacts : List Contact) :
    ResolvedPayee :=
  { contact_id := none
    name := nameHint
    email := emailHint
    match_confidence := 0
    candidates := contacts.take 5 }

/-- The fuzzy name branch of `_best_contact_match` (lines 48-75), falling
through to the no-match result when the hint is falsy or nothing scored. -/
def nameSearch (contacts : List Contact) (nameHint emailHint : Option String) :
    ResolvedPayee :=
  if truthyS nameHint then
    match sortDesc (scoredList (pyNormalize (nameHint.getD "")) contacts) with
    | [] => noMatch nameHint emailHint contacts
    | top :: _ =>
      topHit top
        (((sortDesc (scoredList (pyNormalize (nameHint.getD "")) contacts)).take 5).map
          Prod.snd)
  else noMatch nameHint emailHint contacts

/-- `workflow._best_contact_match`, after the payload has been unwrapped to a
contact list: an exact email scan wins, else fuzzy name matching, else the
no-match fallback. -/
def bestContactMatch (contacts : List Contact)
    (nameHint emailHint : Option String) : ResolvedPayee :=
  if truthyS emailHint then
    match contacts.find? (emailMatches (emailHint.getD "")) with
    | some c => emailHit c
    | none => nameSearch contacts nameHint emailHint
  else nameSearch contacts nameHint emailHint

/-! ## Funding-method selection (`workflow._pick_funding_method_id`) -/

/-- A funding-method record, restricted to the `id` key the source reads. -/
structure FundingMethod where
  id : PyStr := .absent
deriving DecidableEq, Repr

/-- The stringified ids of the methods whose `id` key is present and not
null (`str(m.get("id")) for m if m.get("id") is not None`). -/
def fmIds (ms : List FundingMethod) : List String :=
  ms.filterMap fun m =>
    match m.id with
    | .val s => some s
    | _ => none

/-- The default branch (`for m in methods: if m.get("id") is not None:
return str(m.get("id"))`): the id of the first method whose `id` key is
present and not null. -/
def firstFmId : List FundingMethod → Option String
  | [] => none
  | m :: rest =>
    match m.id with
    | .val s => some s
    | _ => firstFmId rest

/-- `workflow._pick_funding_method_id`: a truthy preferred id present among
the methods' ids wins, else the first usable id, else `None`. -/
def pickFundingMethodId (ms : List FundingMethod) (preferred : Option String) :
    Option String :=
  if truthyS preferred && (fmIds ms).contains (preferred.getD "") then preferred
  else firstFmId ms

/-! ## Command parsing (`workflow.parse_payment_command`)

The two regexes `_AMOUNT_RE = r"\$?\s*([0-9]+(?:\.[0-9]{1,2})?)"` and
`_TO_RE = r"\bto\b\s+([A-Za-z0-9 .,'\"\-]+)"` (IGNORECASE) are embedded as
leftmost-match scanners with the same greedy/backtracking behaviour on their
specific patterns. -/

/-- The uncaught Python exceptions the embedded code can raise:
`IndexError` (out-of-range sequence access), `ValueError` (e.g.
`datetime.fromisoformat` on a malformed string), and `ImportError` (e.g. a
per-call `import mysql.connector` with the package missing). -/
inductive PyExn where
  | indexError
  | valueError
  | importError
deriving DecidableEq, Repr

/-- Numeric value of a run of decimal digits. -/
def digitsVal (ds : List Char) : Nat :=
  ds.foldl (fun a c => a * 10 + (c.toNat - 48)) 0

/-- Try `_AMOUNT_RE` anchored at the start of `l`: optional `$`, then
whitespace, then digits with an optional 1-2 digit fraction; returns the
`float(group(1))` value.  (No backtracking can help this pattern: `$` is
neither whitespace nor a digit.) -/
def amountAt (l : List Char) : Option ℚ :=
  let l1 := match l with
    | '$' :: r => r
    | _ => l
  let l2 := l1.dropWhile isPySpace
  let ds := l2.takeWhile Char.isDigit
  if ds.isEmpty then none
  else
    match l2.drop ds.length with
    | '.' :: r2 =>
      let fs := (r2.takeWhile Char.isDigit).take 2
      if fs.isEmpty then some (mkRat (digitsVal ds) 1)
      else some (mkRat (digitsVal (ds ++ fs)) (10 ^ fs.length))
    | _ => some (mkRat (digitsVal ds) 1)

/-- `_AMOUNT_RE.search`: the leftmost position where the pattern matches. -/
def searchAmount : List Char → Option ℚ
  | [] => none
  | c :: cs =>
    match amountAt (c :: cs) with
    | some q => some q
    | none => searchAmount cs

/-- Python `\w` (ASCII fragment), for the `\b` boundaries of `_TO_RE`. -/
def isWordChar (c : Char) : Bool :=
  c.isAlphanum || c = '_'

/-- The character class `[A-Za-z0-9 .,'"\-]` of `_TO_RE`. -/
def inNameClass (c : Char) : Bool :=
  c.isAlphanum || c = ' ' || c = '.' || c = ',' || c = '\'' || c = '"' || c = '-'

/-- Backtracking of `\s+([class]+)`: try consuming `k` whitespace characters
(from the greedy maximum downward) and take a non-empty greedy class match
from the remainder; Python's engine yields the first success. -/
def grpAfterWs (rest : List Char) : Nat → Option (List Char)
  | 0 => none
  | k + 1 =>
    let grp := (rest.drop (k + 1)).takeWhile inNameClass
    if grp.isEmpty then grpAfterWs rest k else some grp

/-- Try `_TO_RE` anchored at the current position (`prev` is the preceding
character, for the left word boundary): `\bto\b\s+([class]+)`, IGNORECASE.
The right boundary after `o` is implied by `\s+`, since whitespace is never a
word character. -/
def toMatchAt (prev : Option Char) : List Char → Option (List Char)
  | t :: o :: rest =>
    if prev.any isWordChar then none
    else if t.toLower = 't' && o.toLower = 'o' then
      let ws := rest.takeWhile isPySpace
      if ws.isEmpty then none else grpAfterWs rest ws.length
    else none
  | _ => none

/-- `_TO_RE.search`: leftmost match of the payee pattern, returning the raw
captured group. -/
def searchTo (prev : Option Char) : List Char → Option (List Char)
  | [] => none
  | c :: cs =>
    match toMatchAt prev (c :: cs) with
    | some g => some g
    | none => searchTo (some c) cs

/-- The quote characters of `.strip("\"'")`. -/
def isQuoteCh (c : Char) : Bool :=
  c = '"' || c = '\''

/-- First index at which `needle` occurs in `hay` (for `str.split(sep, 1)`). -/
def findSubIdx (needle hay : List Char) : Option Nat :=
  (List.range (hay.length + 1)).find? fun i => needle.isPrefixOf (hay.drop i)

/-- The record returned by `parse_payment_command`. -/
structure ParsedCommand where
  amount : Option ℚ := none
  payee_name : Option String := none
  purpose : Option String := none
deriving DecidableEq, Repr

/-- `workflow.parse_payment_command`.  Note the purpose step: the containment
test runs on `command.lower()`, but `command.split(" for ", 1)` runs on the
original string; when the separator occurs only in a different case the split
yields a single part and the `[1]` access raises `IndexError`. -/
def parsePaymentCommand (command : String) : Except PyExn ParsedCommand :=
  let amt := searchAmount command.data
  let pn := (searchTo none command.data).map
    fun g => (⟨stripSet isQuoteCh (pyStrip g)⟩ : String)
  if isSubstr " for " (lowerStr command) then
    match findSubIdx " for ".data command.data with
    | some i =>
      .ok { amount := amt, payee_name := pn
            purpose := some ⟨pyStrip (command.data.drop (i + 5))⟩ }
    | none => .error .indexError
  else
    .ok { amount := amt, payee_name := pn, purpose := none }

/-! ## Draft model and payloads -/

/-- A JSON-ish value of the proposed/submitted payment payload.  The literal
nested dicts the workflow writes (`{"number": .., "currency": ..}`,
`{"id": ..}`, and the two recipient shapes) are modelled as dedicated
constructors; other values a caller may have stored under extra keys are
covered by the scalar constructors. -/
inductive PVal where
  | nullV
  | str (s : String)
  | num (q : ℚ)
  | boolV (b : Bool)
  | amountObj (number : Option ℚ) (currency : Option String)
  | fundingObj (id : Option String)
  | recipPrep (email name : Option String)
  | recipSubmit (email name contactId : Option String)
deriving DecidableEq, Repr

/-- Python dict read `d.get(k)` on an association list (keys are unique in a
real dict; lookup takes the first occurrence). -/
def dictGet : List (String × PVal) → String → Option PVal
  | [], _ => none
  | (k', v') :: rest, k => if k' = k then some v' else dictGet rest k

/-- Python dict write `d[k] = v`: overwrite the existing entry, else append. -/
def dictSet : List (String × PVal) → String → PVal → List (String × PVal)
  | [], k, v => [(k, v)]
  | (k', v') :: rest, k, v =>
    if k' = k then (k, v) :: rest else (k', v') :: dictSet rest k v

/-- `models.PaymentDraft`. -/
structure PaymentDraft where
  draft_id : String
  idempotency_key : String
  payee : ResolvedPayee := {}
  amount : Option ℚ := none
  currency : Option String := none
  purpose : Option String := none
  funding_method_id : Option String := none
  needs_confirmation : Bool := true
  assumptions : List String := []
  missing_fields : List String := []
  proposed_payment_payload : List (String × PVal) := []
deriving DecidableEq, Repr

/-- `invoice/models.py`: the extracted-invoice fields the payment workflow
reads. -/
structure ExtractedInvoice where
  processable : Bool := true
  reason : Option String := none
  payeeName : Option String := none
  payeeEmail : Option String := none
  amount : Option ℚ := none
  currency : Option String := none
  purpose : Option String := none
deriving DecidableEq, Repr

/-- The failure outcomes of the workflow functions: the deterministic
`ToolError`s raised by the source (with their stable codes) and an uncaught
Python exception escaping to the boundary. -/
inductive WorkflowError where
  | badRequest
  | unprocessableDocument (reason : Option String)
  | missingFields (missing : List String)
  | pyExn (e : PyExn)
deriving DecidableEq, Repr

/-- The environment of a `prepare_payment` call: the collaborator results and
the fresh uuid tokens.  `history` is the behaviour of
`deps.history_store.last_funding_method_id_for_payee` per queried email; the
call may raise — in the MySQL adapter the per-call `import mysql.connector`
executes outside its `try`/`except` — and a raised lookup propagates out of
`prepare_payment`. -/
structure PrepEnv where
  contacts : List Contact
  fundingMethods : List FundingMethod
  history : String → Except PyExn (Option String)
  account_id : String
  draft_id : String
  idem_key : String

/-! ## `workflow.prepare_payment` -/

/-- The final draft assembly (workflow lines 194-218), including the
`needs_confirmation = bool(assumptions or missing or
resolved.match_confidence < 0.95)` computation of line 204. -/
def finishDraft (env : PrepEnv) (resolved : ResolvedPayee)
    (payee_name payee_email : Option String) (amount : Option ℚ)
    (currency purpose fm_id : Option String)
    (assumptions missing : List String) : PaymentDraft :=
  { draft_id := env.draft_id
    idempotency_key := env.idem_key
    payee := resolved
    amount := amount
    currency := currency
    purpose := purpose
    funding_method_id := fm_id
    needs_confirmation :=
      !assumptions.isEmpty || !missing.isEmpty
        || decide (resolved.match_confidence < q095)
    assumptions := assumptions
    missing_fields := missing
    proposed_payment_payload :=
      [("accountId", .str env.account_id),
       ("recipient", .recipPrep (pyOrS resolved.email payee_email)
                                (pyOrS resolved.name payee_name)),
       ("amount", .amountObj amount currency),
       ("purpose", .str (purpose.getD "")),
       ("fundingMethod", .fundingObj fm_id),
       ("description", .str "Payment created by Invoice AI (POC)"),
       ("idempotencyKey", .str env.idem_key)] }

/-- The pure draft assembly of lines 158-218 given the history lookup's
result `preferred_fm`: currency hint and USD defaulting, missing-field
detection, payee resolution, funding-method selection, purpose defaulting,
and the final draft.  The field computations that precede the history call
in the source are pure, so gathering them after the (successful) call leaves
the resulting draft unchanged. -/
def prepareDraft (env : PrepEnv) (payee_name payee_email : Option String)
    (amount : Option ℚ) (currency0 purpose0 : Option String)
    (currency_hint : Option String) (preferred_fm : Option String) :
    PaymentDraft :=
  let useHint := truthyS currency_hint && !truthyS currency0
  let currency1 := if useHint then currency_hint else currency0
  let asm1 :=
    if useHint then ["Used currency hint '" ++ currency_hint.getD "" ++ "'."]
    else []
  let missing1 := if !truthyQ amount then ["amount"] else []
  let missing2 := missing1 ++
    (if !truthyS payee_name && !truthyS payee_email then ["payee"] else [])
  let currency := if !truthyS currency1 then some "USD" else currency1
  let asm2 := if !truthyS currency1 then ["Defaulted currency to USD."] else []
  let resolved := bestContactMatch env.contacts payee_name payee_email
  let asm3 :=
    if resolved.match_confidence < q08 then
      ["Payee match is uncertain; please confirm."]
    else []
  let asm4 :=
    if truthyS preferred_fm then ["Inferred funding method from past payments."]
    else []
  let fm_id := pickFundingMethodId env.fundingMethods preferred_fm
  let missing3 := missing2 ++ (if !truthyS fm_id then ["funding_method_id"] else [])
  let purpose := if !truthyS purpose0 then some "Invoice payment" else purpose0
  let asm5 :=
    if !truthyS purpose0 then ["Defaulted purpose to 'Invoice payment'."]
    else []
  let assumptions := asm1 ++ asm2 ++ asm3 ++ asm4 ++ asm5
  finishDraft env resolved payee_name payee_email amount currency purpose fm_id
    assumptions missing3

/-- The history call of lines 181-183: the store is queried only when the
resolved payee's email is truthy, and the call may raise. -/
def histCall (env : PrepEnv) (pn pe : Option String) :
    Except PyExn (Option String) :=
  if truthyS (bestContactMatch env.contacts pn pe).email then
    env.history ((bestContactMatch env.contacts pn pe).email.getD "")
  else .ok none

/-- The emails the history store was queried with during lines 181-183. -/
def histLogOf (env : PrepEnv) (pn pe : Option String) : List String :=
  if truthyS (bestContactMatch env.contacts pn pe).email then
    [(bestContactMatch env.contacts pn pe).email.getD ""]
  else []

/-- Lines 158-218 of `prepare_payment`: everything after field seeding.  A
raised history lookup aborts the preparation — the exception propagates out
of `prepare_payment` — and the second component is the list of emails the
history store was queried with. -/
def prepareRest (env : PrepEnv) (payee_name payee_email : Option String)
    (amount : Option ℚ) (currency0 purpose0 : Option String)
    (currency_hint : Option String) :
    Except WorkflowError PaymentDraft × List String :=
  match histCall env payee_name payee_email with
  | .error e => (.error (.pyExn e), histLogOf env payee_name payee_email)
  | .ok preferred_fm =>
    (.ok (prepareDraft env payee_name payee_email amount currency0 purpose0
        currency_hint preferred_fm),
     histLogOf env payee_name payee_email)

/-- Lines 152-156: run the command parser when a command is (truthily) given
and fill only the fields still falsy, then continue with `prepareRest`. -/
def mergeCommand (env : PrepEnv) (command : Option String)
    (payee_name payee_email : Option String) (amount : Option ℚ)
    (currency purpose : Option String) (currency_hint : Option String) :
    Except WorkflowError PaymentDraft × List String :=
  if truthyS command then
    match parsePaymentCommand (command.getD "") with
    | .error e => (.error (.pyExn e), [])
    | .ok parsed =>
      prepareRest env (pyOrS payee_name parsed.payee_name) payee_email
        (pyOrQ amount parsed.amount) currency (pyOrS purpose parsed.purpose)
        currency_hint
  else
    prepareRest env payee_name payee_email amount currency purpose
      currency_hint

/-- `workflow.prepare_payment`, with collaborator results supplied through
`env`.  The second component is the list of emails the payment-history store
was queried with during the call. -/
def preparePayment (env : PrepEnv) (command : Option String)
    (invoice : Option ExtractedInvoice) (currency_hint : Option String) :
    Except WorkflowError PaymentDraft × List String :=
  if !truthyS command && invoice.isNone then (.error .badRequest, [])
  else
    match invoice with
    | some inv =>
      if !inv.processable then (.error (.unprocessableDocument inv.reason), [])
      else
        mergeCommand env command inv.payeeName inv.payeeEmail inv.amount
          inv.currency inv.purpose currency_hint
    | none => mergeCommand env command none none none none none currency_hint

/-! ## `workflow.submit_payment` -/

/-- The gate of lines 223-231: required fields that are falsy, in check
order. -/
def submitRequired (d : PaymentDraft) : List String :=
  (if !truthyQ d.amount then ["amount"] else []) ++
  (if !truthyS d.currency then ["currency"] else []) ++
  (if !truthyS d.payee.email && !truthyS d.payee.name then ["payee"] else []) ++
  (if !truthyS d.funding_method_id then ["funding_method_id"] else [])

/-- The payload rebuild of lines 236-244: copy the proposed payload, then
overwrite `amount`, `fundingMethod`, `purpose` (falling back to the copied
payload's value when the draft's purpose is falsy) and `recipient`. -/
def buildSubmitPayload (d : PaymentDraft) : List (String × PVal) :=
  let p0 := d.proposed_payment_payload
  let p1 := dictSet p0 "amount" (.amountObj d.amount d.currency)
  let p2 := dictSet p1 "fundingMethod" (.fundingObj d.funding_method_id)
  let p3 := dictSet p2 "purpose"
    (if truthyS d.purpose then .str (d.purpose.getD "")
     else (dictGet p2 "purpose").getD .nullV)
  dictSet p3 "recipient" (.recipSubmit d.payee.email d.payee.name d.payee.contact_id)

/-- `workflow.submit_payment`, parameterised by the provider response: the
gate raises `MISSING_FIELDS` before any external call; on success the rebuilt
payload is sent to `create_payment`.  The second component is the list of
payloads actually sent. -/
def submitPayment {ρ : Type} (create : List (String × PVal) → ρ)
    (d : PaymentDraft) : Except WorkflowError ρ × List (List (String × PVal)) :=
  if (submitRequired d).isEmpty then
    (.ok (create (buildSubmitPayload d)), [buildSubmitPayload d])
  else (.error (.missingFields (submitRequired d)), [])

/-! ## Scheduling (`tools.payment_schedule` and
`adapters/stores/sqlite_schedule_store.py`) -/

/-- What `SqliteScheduleStore.create` did: which `run_at_utc` arguments it
was invoked with, and which rows actually reached the database. -/
structure ScheduleLog where
  createCalls : List String := []
  inserts : List String := []
deriving DecidableEq, Repr

/-- `run_at_utc.replace("Z", "+00:00")`: since the needle is the single
character `Z`, Python's replace-all is per-character expansion. -/
def zReplace (s : String) : String :=
  ⟨(s.data.map fun c => if c = 'Z' then "+00:00".data else [c]).flatten⟩

/-- `SqliteScheduleStore.create`, parameterised by a model `fromiso` of
`datetime.fromisoformat` and by the autoincrement row id: it first validates
`run_at_utc.replace("Z", "+00:00")` (a `ValueError` escapes before any
database work), then inserts the row and returns the result dict.  The
serialized draft stored in the row is not inspected by any caller and is not
modelled. -/
def sqliteScheduleCreate (fromiso : String → Option Unit) (rowid : Nat)
    (run_at_utc : String) : Except PyExn (List (String × PVal)) × List String :=
  match fromiso (zReplace run_at_utc) with
  | none => (.error .valueError, [])
  | some _ =>
    (.ok [("schedule_id", .str (toString rowid)),
          ("status", .str "scheduled"),
          ("run_at_utc", .str run_at_utc)], [run_at_utc])

/-- The failure/success envelope of the tool layer
(`domain/common/responses.py`), reduced to the fields the claims are about. -/
inductive ToolResp where
  | ok (data : List (String × PVal))
  | fail (code : String) (message : String)
deriving DecidableEq, Repr

/-- `tools.payment_schedule`: validates nothing itself; it invokes the
schedule store's `create` directly, and a `ValueError` raised there is caught
by the generic `except Exception` handler and reported under the `UNHANDLED`
code. -/
def paymentSchedule (fromiso : String → Option Unit) (rowid : Nat)
    (_draft : PaymentDraft) (run_at_utc : String) : ToolResp × ScheduleLog :=
  let r := sqliteScheduleCreate fromiso rowid run_at_utc
  match r.1 with
  | .ok data => (.ok data, { createCalls := [run_at_utc], inserts := r.2 })
  | .error _ =>
    (.fail "UNHANDLED" "Unhandled error scheduling payment.",
     { createCalls := [run_at_utc], inserts := r.2 })

/-- Partial executable model of Python's `datetime.fromisoformat`, used to
instantiate the `fromiso` parameter on concrete inputs: it accepts
`YYYY-MM-DD`, optionally followed by `THH:MM:SS` (or with a space separator)
and an optional `+HH:MM`/`-HH:MM` offset.  Strings outside this fragment
(such as `"not-a-date"`) are rejected, as Python rejects them. -/
def pyFromIso (s : String) : Option Unit :=
  let d2 := fun (a b : Char) (lo hi : Nat) =>
    a.isDigit && b.isDigit && lo ≤ (a.toNat - 48) * 10 + (b.toNat - 48)
      && (a.toNat - 48) * 10 + (b.toNat - 48) ≤ hi
  let time4 := fun (l : List Char) =>
    match l with
    | [h1, h2, ':', m1, m2, ':', s1, s2] =>
      d2 h1 h2 0 23 && d2 m1 m2 0 59 && d2 s1 s2 0 59
    | _ => false
  let timeTail := fun (l : List Char) =>
    match l with
    | [] => true
    | sep :: rest =>
      (sep = 'T' || sep = ' ') &&
      (time4 rest ||
        match rest.drop 8 with
        | sgn :: o1 :: o2 :: ':' :: o3 :: o4 :: [] =>
          time4 (rest.take 8) && (sgn = '+' || sgn = '-') &&
            d2 o1 o2 0 23 && d2 o3 o4 0 59
        | _ => false)
  match s.data with
  | y1 :: y2 :: y3 :: y4 :: '-' :: m1 :: m2 :: '-' :: d1 :: dd2 :: rest =>
    if y1.isDigit && y2.isDigit && y3.isDigit && y4.isDigit &&
        (m1.toNat - 48) * 10 + (m2.toNat - 48) ≥ 1 && m1.isDigit && m2.isDigit &&
        (m1.toNat - 48) * 10 + (m2.toNat - 48) ≤ 12 &&
        d1.isDigit && dd2.isDigit && (d1.toNat - 48) * 10 + (dd2.toNat - 48) ≥ 1 &&
        (d1.toNat - 48) * 10 + (dd2.toNat - 48) ≤ 31 && timeTail rest then
      some ()
    else none
  | _ => none

/-! ## History store (`adapters/stores/mysql_history_store.py`) -/

/-- What happens inside `last_funding_method_id_for_payee` once the store is
enabled: the per-call `import mysql.connector` — which executes *outside*
the `try`/`except` — raises because the package is missing; the
connection/query work inside the `try` raises; the query returns no row; or
it returns a row whose first column may itself be SQL `NULL`. -/
inductive DbOutcome where
  | importError
  | failure
  | noRow
  | row (v : Option String)
deriving DecidableEq, Repr

/-- `MySqlPaymentHistoryStore.last_funding_method_id_for_payee`: a disabled
configuration returns `None` before the import; a missing package raises
`ImportError` out of the method (the import statement precedes the `try`
block, so nothing catches it); an exception from the connection/query work
is caught and mapped to `None` (fail-open); otherwise
`row[0] if row else None`. -/
def mysqlLastFundingMethod (enabled : Bool) (db : DbOutcome) :
    Except PyExn (Option String) :=
  if !enabled then .ok none
  else
    match db with
    | .importError => .error .importError
    | .failure => .ok none
    | .noRow => .ok none
    | .row v => .ok v

/-- Decidable equality on `Except` results (not provided by the core
library in this toolchain). -/
instance exceptDecEq {ε α : Type} [DecidableEq ε] [DecidableEq α] :
    DecidableEq (Except ε α)
  | .ok a, .ok b =>
    if h : a = b then .isTrue (by rw [h])
    else .isFalse (fun hc => h (Except.ok.inj hc))
  | .ok _, .error _ => .isFalse (fun hc => Except.noConfusion hc)
  | .error _, .ok _ => .isFalse (fun hc => Except.noConfusion hc)
  | .error a, .error b =>
    if h : a = b then .isTrue (by rw [h])
    else .isFalse (fun hc => h (Except.error.inj hc))

/-- `Except.isOk` as a plain boolean (success discriminator). -/
def isOkE {ε α : Type} : Except ε α → Bool
  | .ok _ => true
  | .error _ => false

/-! ## Specification-side definitions and concrete fixtures -/

/-- The earliest maximal-score entry of a scored list (what a stable
descending sort puts first). -/
def pickFirstMax : List (ℚ × Contact) → Option (ℚ × Contact)
  | [] => none
  | x :: xs =>
    match pickFirstMax xs with
    | none => some x
    | some y => if x.1 < y.1 then some y else some x

/-- The environment used to instantiate the claims on concrete inputs. -/
def envW : PrepEnv :=
  { contacts := [], fundingMethods := [], history := fun _ => .ok none
    account_id := "acct", draft_id := "draft-1", idem_key := "idem-1" }

/-- The contact list used to instantiate C2: the first contact is a perfect
name match for the hint, the second carries the (differently cased and
padded) email. -/
def contactsW : List Contact :=
  [{ id := .val "c9", name := .val "Samuel Best", email := .val "other@x.com" },
   { id := .val "c1", name := .val "Bo", email := .val " Sam@X.com " }]

/-- The contact list used to instantiate C3: an exact normalized name match,
a substring match, and an unscored contact. -/
def contactsW3 : List Contact :=
  [{ id := .val "c1", name := .val "Sam Example", email := .val "sam@x.com" },
   { id := .val "c2", name := .val " SAM ", email := .val "s2@x.com" },
   { id := .val "c3", name := .val "Bob", email := .val "b@x.com" }]

/-- A fully resolved payee used by the submit fixtures. -/
def payeeW : ResolvedPayee :=
  { contact_id := some "c1", name := some "Sam", email := some "sam@x.com"
    match_confidence := 1, candidates := [] }

/-- The C4 counterexample draft: `amount` is set — to `0.0` — and `currency`
is null; the payee and funding method are truthily present. -/
def draftC4 : PaymentDraft :=
  { draft_id := "d", idempotency_key := "k", payee := payeeW
    amount := some 0, currency := none, purpose := some "x"
    funding_method_id := some "fm_1" }

/-- A draft whose only falsy required field is `currency`. -/
def draftC4W : PaymentDraft :=
  { draft_id := "d", idempotency_key := "k", payee := payeeW
    amount := some (mkRat 50 1), currency := none, purpose := some "x"
    funding_method_id := some "fm_1" }

/-- A minimal draft for the scheduling fixtures. -/
def draftSched : PaymentDraft :=
  { draft_id := "d", idempotency_key := "k" }

/-- The C7 counterexample invoice: `amount` is explicitly set to `0.0`. -/
def invZero : ExtractedInvoice :=
  { processable := true, payeeName := some "Zed Corp"
    amount := some 0, currency := some "USD" }

/-- The C9 counterexample collection: the second method's id is the empty
string, which is non-null and among the collection's ids. -/
def fmsCX : List FundingMethod :=
  [{ id := .val "a" }, { id := .val "" }]

/-- The C10 fixture draft: a gate-passing draft whose proposed payload holds
an earlier idempotency key and an extra passthrough entry, while the draft
itself carries an edited `idempotency_key`. -/
def draftC10 : PaymentDraft :=
  { draft_id := "d", idempotency_key := "k-edited", payee := payeeW
    amount := some (mkRat 50 1), currency := some "USD"
    purpose := some "lunch", funding_method_id := some "fm_1"
    proposed_payment_payload :=
      [("accountId", .str "acct"),
       ("recipient", .recipPrep (some "e") (some "n")),
       ("amount", .amountObj (some (mkRat 1 1)) (some "CAD")),
       ("purpose", .str "old"),
       ("fundingMethod", .fundingObj (some "fm_9")),
       ("description", .str "desc"),
       ("idempotencyKey", .str "k-original"),
       ("extraKey", .str "extra")] }

/-- The C8 counterexample environment: the history function is the MySQL
store, enabled, with the `mysql.connector` package missing, so every lookup
raises `ImportError`. -/
def envC8 : PrepEnv :=
  { contacts := [], fundingMethods := []
    history := fun _ => mysqlLastFundingMethod true DbOutcome.importError
    account_id := "acct", draft_id := "d", idem_key := "k" }

/-- The C8 counterexample invoice: it carries a payee email, so the resolved
payee echoes it and the history lookup fires. -/
def invC8 : ExtractedInvoice :=
  { processable := true, payeeEmail := some "sam@x.com" }

/-! ## Helper lemmas -/

lemma q095_eq : q095 = 19/20 := by
  unfold q095
  rw [Rat.mkRat_eq_divInt, Rat.divInt_eq_div]
  norm_num

lemma q08_eq : q08 = 4/5 := by
  unfold q08
  rw [Rat.mkRat_eq_divInt, Rat.divInt_eq_div]
  norm_num

lemma q06_eq : q06 = 3/5 := by
  unfold q06
  rw [Rat.mkRat_eq_divInt, Rat.divInt_eq_div]
  norm_num

lemma truthyQ_eq_false_iff (a : Option ℚ) :
    truthyQ a = false ↔ a = none ∨ a = some 0 := by
  cases a <;> simp [truthyQ]

lemma truthyS_eq_false_iff (a : Option String) :
    truthyS a = false ↔ a = none ∨ a = some "" := by
  cases a <;> simp [truthyS]

lemma prepareDraft_shape (env : PrepEnv) (pn pe : Option String)
    (a : Option ℚ) (c0 p0 hint pref : Option String) :
    ∃ r pn' pe' am cur pur fm asm mis,
      prepareDraft env pn pe a c0 p0 hint pref =
        finishDraft env r pn' pe' am cur pur fm asm mis :=
  ⟨_, _, _, _, _, _, _, _, _, rfl⟩

lemma prepareRest_ok_shape {env : PrepEnv} {pn pe : Option String}
    {a : Option ℚ} {c0 p0 hint : Option String} {d : PaymentDraft}
    (h : (prepareRest env pn pe a c0 p0 hint).1 = .ok d) :
    ∃ r pn' pe' am cur pur fm asm mis,
      d = finishDraft env r pn' pe' am cur pur fm asm mis := by
  unfold prepareRest at h
  cases hc : histCall env pn pe with
  | error e =>
    rw [hc] at h
    replace h : (Except.error (WorkflowError.pyExn e) :
        Except WorkflowError PaymentDraft) = Except.ok d := h
    exact Except.noConfusion h
  | ok pref =>
    rw [hc] at h
    replace h : Except.ok (prepareDraft env pn pe a c0 p0 hint pref) =
        Except.ok d := h
    obtain ⟨r, pn', pe', am, cur, pur, fm, asm, mis, hs⟩ :=
      prepareDraft_shape env pn pe a c0 p0 hint pref
    exact ⟨r, pn', pe', am, cur, pur, fm, asm, mis,
      (Except.ok.inj h) ▸ hs ▸ rfl⟩

lemma preparePayment_ok_shape {env : PrepEnv} {cmd : Option String}
    {inv : Option ExtractedInvoice} {hint : Option String} {d : PaymentDraft}
    (h : (preparePayment env cmd inv hint).1 = .ok d) :
    ∃ r pn pe am cur pur fm asm mis,
      d = finishDraft env r pn pe am cur pur fm asm mis := by
  unfold preparePayment at h
  split at h
  · simp at h
  · split at h
    · rename_i inv'
      split at h
      · simp at h
      · unfold mergeCommand at h
        split at h
        · split at h
          · simp at h
          · exact prepareRest_ok_shape h
        · exact prepareRest_ok_shape h
    · unfold mergeCommand at h
      split at h
      · split at h
        · simp at h
        · exact prepareRest_ok_shape h
      · exact prepareRest_ok_shape h

/-! ## C1: the needs_confirmation invariant -/

/-- C1: for every draft successfully returned by `prepare_payment`,
`needs_confirmation` is true if and only if the assumptions list is
non-empty, or the missing_fields list is non-empty, or the resolved payee's
`match_confidence` is strictly less than 0.95. -/
theorem prepare_needsConfirmation_iff (env : PrepEnv) (cmd : Option String)
    (inv : Option ExtractedInvoice) (hint : Option String) (d : PaymentDraft)
    (h : (preparePayment env cmd inv hint).1 = .ok d) :
    d.needs_confirmation = true ↔
      d.assumptions ≠ [] ∨ d.missing_fields ≠ [] ∨
        d.payee.match_confidence < 19/20 := by
  obtain ⟨r, pn, pe, am, cur, pur, fm, asm, mis, rfl⟩ := preparePayment_ok_shape h
  show (!asm.isEmpty || !mis.isEmpty || decide (r.match_confidence < q095)) = true ↔
    asm ≠ [] ∨ mis ≠ [] ∨ r.match_confidence < 19/20
  rw [q095_eq]
  cases asm <;> cases mis <;> simp

/-- Witness for C1: `prepare_payment` with command `"pay"` in an empty
environment succeeds, and the proved equivalence holds for its draft. -/
theorem prepare_needsConfirmation_iff_witness :
    ∃ d, (preparePayment envW (some "pay") none none).1 = .ok d ∧
      (d.needs_confirmation = true ↔
        d.assumptions ≠ [] ∨ d.missing_fields ≠ [] ∨
          d.payee.match_confidence < 19/20) := by
  cases heq : (preparePayment envW (some "pay") none none).1 with
  | ok d =>
    exact ⟨d, rfl, prepare_needsConfirmation_iff envW (some "pay") none none d heq⟩
  | error e =>
    have hok : isOkE (preparePayment envW (some "pay") none none).1 = true := by
      decide
    rw [heq] at hok
    simp [isOkE] at hok

/-! ## C2: exact email match wins -/

lemma find?_eq_some_of_exists {α : Type} {p : α → Bool} {l : List α}
    (h : ∃ x ∈ l, p x = true) : ∃ c, l.find? p = some c := by
  induction l with
  | nil => simp at h
  | cons a t ih =>
    by_cases hp : p a = true
    · exact ⟨a, by simp [List.find?_cons_of_pos _ hp]⟩
    · obtain ⟨x, hx, hpx⟩ := h
      rcases List.mem_cons.mp hx with hx | hx
      · exact absurd (hx ▸ hpx) hp
      · obtain ⟨c, hc⟩ := ih ⟨x, hx, hpx⟩
        exact ⟨c, by rw [List.find?_cons_of_neg _ hp]; exact hc⟩

/-- C2: for every contact collection and every (truthy) email hint, if some
contact's email normalizes (trim, lowercase, whitespace-collapse, as
`_normalize` does) to the normalized hint, then resolution returns such a
contact with `match_confidence` 1.0 and a candidate list containing exactly
that contact, regardless of any name hint and of any better name-similarity
match elsewhere in the collection. -/
theorem emailExactMatchWins (contacts : List Contact) (nameHint : Option String)
    (e : String) (he : e ≠ "")
    (hex : ∃ c ∈ contacts, pyNormalize c.email.getDefStr = pyNormalize e) :
    ∃ c ∈ contacts, pyNormalize c.email.getDefStr = pyNormalize e ∧
      bestContactMatch contacts nameHint (some e) = emailHit c ∧
      (bestContactMatch contacts nameHint (some e)).match_confidence = 1 ∧
      (bestContactMatch contacts nameHint (some e)).candidates = [c] := by
  have htr : truthyS (some e) = true := by simp [truthyS, he]
  have hex' : ∃ c ∈ contacts, emailMatches e c = true := by
    obtain ⟨c, hc, hce⟩ := hex
    exact ⟨c, hc, by simp [emailMatches, hce]⟩
  obtain ⟨c, hfind⟩ := find?_eq_some_of_exists hex'
  have hc : c ∈ contacts := List.mem_of_find?_eq_some hfind
  have hpc : emailMatches e c = true := List.find?_some hfind
  have hn : pyNormalize c.email.getDefStr = pyNormalize e := by
    simpa [emailMatches] using hpc
  have hres : bestContactMatch contacts nameHint (some e) = emailHit c := by
    unfold bestContactMatch
    rw [htr]
    simp only [if_true]
    rw [show (some e).getD "" = e from rfl, hfind]
  exact ⟨c, hc, hn, hres, by rw [hres]; rfl, by rw [hres]; rfl⟩

/-- Witness for C2 at a concrete collection: the exact email match (second
contact) is selected with confidence 1.0 even though the name hint exactly
matches the first contact. -/
theorem emailExactMatchWins_witness :
    ("sam@x.com" ≠ "" ∧
      ∃ c ∈ contactsW,
        pyNormalize c.email.getDefStr = pyNormalize "sam@x.com") ∧
    ∃ c ∈ contactsW,
      pyNormalize c.email.getDefStr = pyNormalize "sam@x.com" ∧
        bestContactMatch contactsW (some "Samuel Best") (some "sam@x.com") =
          emailHit c ∧
        (bestContactMatch contactsW (some "Samuel Best")
            (some "sam@x.com")).match_confidence = 1 ∧
        (bestContactMatch contactsW (some "Samuel Best")
            (some "sam@x.com")).candidates = [c] :=
  ⟨⟨by decide, by decide⟩,
   emailExactMatchWins contactsW (some "Samuel Best") "sam@x.com"
     (by decide) (by decide)⟩

/-! ## C3: fuzzy name scoring, selection and candidate ordering -/

lemma sortDesc_cons (a : ℚ × Contact) (l : List (ℚ × Contact)) :
    sortDesc (a :: l) = insertDesc a (sortDesc l) := rfl

lemma insertDesc_perm (x : ℚ × Contact) (l : List (ℚ × Contact)) :
    List.Perm (insertDesc x l) (x :: l) := by
  induction l with
  | nil => rfl
  | cons y ys ih =>
    unfold insertDesc
    by_cases h : y.1 ≤ x.1
    · rw [if_pos h]
    · rw [if_neg h]
      exact (ih.cons y).trans (List.Perm.swap x y ys)

lemma sortDesc_perm (l : List (ℚ × Contact)) :
    List.Perm (sortDesc l) l := by
  induction l with
  | nil => rfl
  | cons a t ih => exact (insertDesc_perm a (sortDesc t)).trans (ih.cons a)

lemma insertDesc_pairwise {x : ℚ × Contact} {l : List (ℚ × Contact)}
    (h : l.Pairwise fun p q => q.1 ≤ p.1) :
    (insertDesc x l).Pairwise fun p q => q.1 ≤ p.1 := by
  induction l with
  | nil => simp [insertDesc]
  | cons y ys ih =>
    rw [List.pairwise_cons] at h
    obtain ⟨hy, hys⟩ := h
    unfold insertDesc
    by_cases hc : y.1 ≤ x.1
    · rw [if_pos hc]
      refine List.Pairwise.cons ?_ (List.Pairwise.cons hy hys)
      intro z hz
      rcases List.mem_cons.mp hz with hz | hz
      · exact hz ▸ hc
      · exact le_trans (hy z hz) hc
    · rw [if_neg hc]
      refine List.Pairwise.cons ?_ (ih hys)
      intro z hz
      rcases List.mem_cons.mp ((insertDesc_perm x ys).mem_iff.mp hz) with hz | hz
      · exact hz ▸ le_of_lt (lt_of_not_le hc)
      · exact hy z hz

lemma sortDesc_pairwise (l : List (ℚ × Contact)) :
    (sortDesc l).Pairwise fun p q => q.1 ≤ p.1 := by
  induction l with
  | nil => simp [sortDesc]
  | cons a t ih => exact insertDesc_pairwise ih

lemma sortDesc_eq_nil_iff (l : List (ℚ × Contact)) :
    sortDesc l = [] ↔ l = [] := by
  constructor
  · intro h
    exact ((sortDesc_perm l).symm.trans (h ▸ List.Perm.refl _)).eq_nil
  · intro h
    rw [h]
    rfl

lemma pickFirstMax_ne_none {a : ℚ × Contact} {t : List (ℚ × Contact)} :
    pickFirstMax (a :: t) ≠ none := by
  unfold pickFirstMax
  cases pickFirstMax t <;> simp
  split <;> simp

lemma sortDesc_head {l : List (ℚ × Contact)} {top : ℚ × Contact}
    {rest : List (ℚ × Contact)} (h : sortDesc l = top :: rest) :
    pickFirstMax l = some top := by
  induction l generalizing top rest with
  | nil => simp [sortDesc] at h
  | cons a t ih =>
    rw [sortDesc_cons] at h
    cases hs : sortDesc t with
    | nil =>
      rw [hs] at h
      unfold insertDesc at h
      injection h with h1 _
      have ht : t = [] := (sortDesc_eq_nil_iff t).mp hs
      subst ht
      simp [pickFirstMax, h1]
    | cons y ys =>
      have hy : pickFirstMax t = some y := ih hs
      rw [hs] at h
      unfold insertDesc at h
      by_cases hc : y.1 ≤ a.1
      · rw [if_pos hc] at h
        injection h with h1 _
        subst h1
        unfold pickFirstMax
        rw [hy]
        simp [not_lt.mpr hc]
      · rw [if_neg hc] at h
        injection h with h1 _
        subst h1
        unfold pickFirstMax
        rw [hy]
        simp [lt_of_not_le hc]

lemma pickFirstMax_spec {l : List (ℚ × Contact)} {x : ℚ × Contact}
    (h : pickFirstMax l = some x) :
    ∃ l₁ l₂, l = l₁ ++ x :: l₂ ∧ (∀ q ∈ l₁, q.1 < x.1) ∧
      ∀ q ∈ l, q.1 ≤ x.1 := by
  induction l generalizing x with
  | nil => simp [pickFirstMax] at h
  | cons a t ih =>
    cases hp : pickFirstMax t with
    | none =>
      have ht : t = [] := by
        cases t with
        | nil => rfl
        | cons b s => exact absurd hp pickFirstMax_ne_none
      subst ht
      simp [pickFirstMax] at h
      subst h
      exact ⟨[], [], rfl, by simp, by simp⟩
    | some y =>
      unfold pickFirstMax at h
      rw [hp] at h
      replace h : (if a.1 < y.1 then some y else some a) = some x := h
      by_cases hc : a.1 < y.1
      · rw [if_pos hc] at h
        injection h with h
        subst h
        obtain ⟨l₁, l₂, hdec, hstrict, hmax⟩ := ih hp
        refine ⟨a :: l₁, l₂, by rw [hdec]; rfl, ?_, ?_⟩
        · intro q hq
          rcases List.mem_cons.mp hq with hq | hq
          · exact hq ▸ hc
          · exact hstrict q hq
        · intro q hq
          rcases List.mem_cons.mp hq with hq | hq
          · exact hq ▸ le_of_lt hc
          · exact hmax q hq
      · rw [if_neg hc] at h
        injection h with h
        subst h
        obtain ⟨_, _, _, _, hmax⟩ := ih hp
        refine ⟨[], t, rfl, by simp, ?_⟩
        intro q hq
        rcases List.mem_cons.mp hq with hq | hq
        · exact hq ▸ le_refl _
        · exact le_trans (hmax q hq) (not_lt.mp hc)

lemma scoredList_mem_iff {n : String} {contacts : List Contact}
    {p : ℚ × Contact} :
    p ∈ scoredList n contacts ↔
      p.2 ∈ contacts ∧ pyNormalize (contactNameStr p.2) ≠ "" ∧
        0 < scoreOf n (pyNormalize (contactNameStr p.2)) ∧
        p.1 = scoreOf n (pyNormalize (contactNameStr p.2)) := by
  obtain ⟨q, c⟩ := p
  unfold scoredList
  rw [List.mem_filterMap]
  constructor
  · rintro ⟨a, ha, hfa⟩
    by_cases h1 : pyNormalize (contactNameStr a) = ""
    · simp [h1] at hfa
    · by_cases h2 : 0 < scoreOf n (pyNormalize (contactNameStr a))
      · simp only [h1, h2] at hfa
        simp [h1, h2] at hfa
        obtain ⟨hq, rfl⟩ := hfa
        exact ⟨ha, h1, h2, hq.symm⟩
      · simp [h1, h2] at hfa
  · rintro ⟨hmem, h1, h2, h3⟩
    refine ⟨c, hmem, ?_⟩
    simp only at h3
    simp [h1, h2, h3]

/-- C3: when fuzzy name matching applies (truthy name hint, no email hit),
every contact with a non-empty (normalized) display name is scored 0.95 on
normalized equality, else 0.8 on substring containment either way, else 0.6
on a hint token occurring in the contact name, else excluded; the resolver
returns a highest-scoring contact, ties broken by earliest input position,
with that score as `match_confidence` and the top 5 scored contacts in
descending score order as candidates. -/
theorem nameFuzzyScoringSelection (contacts : List Contact) (nm : String)
    (emailHint : Option String) (hnm : nm ≠ "")
    (hskip : ∀ em, emailHint = some em → em ≠ "" →
      contacts.find? (emailMatches em) = none)
    (hne : scoredList (pyNormalize nm) contacts ≠ []) :
    (∀ c ∈ contacts, pyNormalize (contactNameStr c) ≠ "" →
      ((pyNormalize (contactNameStr c) = pyNormalize nm →
          scoreOf (pyNormalize nm) (pyNormalize (contactNameStr c)) = 19/20) ∧
       (pyNormalize (contactNameStr c) ≠ pyNormalize nm →
          (isSubstr (pyNormalize nm) (pyNormalize (contactNameStr c)) ||
             isSubstr (pyNormalize (contactNameStr c)) (pyNormalize nm)) = true →
          scoreOf (pyNormalize nm) (pyNormalize (contactNameStr c)) = 4/5) ∧
       (pyNormalize (contactNameStr c) ≠ pyNormalize nm →
          (isSubstr (pyNormalize nm) (pyNormalize (contactNameStr c)) ||
             isSubstr (pyNormalize (contactNameStr c)) (pyNormalize nm)) = false →
          ((pyTokens (pyNormalize nm)).any fun tok =>
             isSubstr tok (pyNormalize (contactNameStr c))) = true →
          scoreOf (pyNormalize nm) (pyNormalize (contactNameStr c)) = 3/5) ∧
       (pyNormalize (contactNameStr c) ≠ pyNormalize nm →
          (isSubstr (pyNormalize nm) (pyNormalize (contactNameStr c)) ||
             isSubstr (pyNormalize (contactNameStr c)) (pyNormalize nm)) = false →
          ((pyTokens (pyNormalize nm)).any fun tok =>
             isSubstr tok (pyNormalize (contactNameStr c))) = false →
          ∀ q, (q, c) ∉ scoredList (pyNormalize nm) contacts))) ∧
    ∃ top l₁ l₂,
      scoredList (pyNormalize nm) contacts = l₁ ++ top :: l₂ ∧
      (∀ q ∈ l₁, q.1 < top.1) ∧
      (∀ q ∈ scoredList (pyNormalize nm) contacts, q.1 ≤ top.1) ∧
      top.2 ∈ contacts ∧
      top.1 = scoreOf (pyNormalize nm) (pyNormalize (contactNameStr top.2)) ∧
      bestContactMatch contacts (some nm) emailHint =
        topHit top
          (((sortDesc (scoredList (pyNormalize nm) contacts)).take 5).map
            Prod.snd) ∧
      (bestContactMatch contacts (some nm) emailHint).match_confidence = top.1 ∧
      (bestContactMatch contacts (some nm) emailHint).candidates =
        ((sortDesc (scoredList (pyNormalize nm) contacts)).take 5).map
          Prod.snd ∧
      (sortDesc (scoredList (pyNormalize nm) contacts)).Pairwise
        (fun p q => q.1 ≤ p.1) ∧
      List.Perm (sortDesc (scoredList (pyNormalize nm) contacts))
        (scoredList (pyNormalize nm) contacts) := by
  constructor
  · intro c _ hcn
    refine ⟨?_, ?_, ?_, ?_⟩
    · intro h
      simp [scoreOf, h, q095_eq]
    · intro h1 h2
      simp [scoreOf, h1, h2, q08_eq]
    · intro h1 h2 h3
      simp [scoreOf, h1, h2, h3, q06_eq]
    · intro h1 h2 h3 q hq
      rw [scoredList_mem_iff] at hq
      obtain ⟨_, _, hpos, _⟩ := hq
      have hz : scoreOf (pyNormalize nm) (pyNormalize (contactNameStr c)) = 0 := by
        simp [scoreOf, h1, h2, h3]
      rw [hz] at hpos
      exact absurd hpos (lt_irrefl 0)
  · have hsortne : sortDesc (scoredList (pyNormalize nm) contacts) ≠ [] := by
      intro h
      exact hne ((sortDesc_eq_nil_iff _).mp h)
    obtain ⟨top, rest, hsort⟩ :
        ∃ top rest, sortDesc (scoredList (pyNormalize nm) contacts) =
          top :: rest := by
      cases hs : sortDesc (scoredList (pyNormalize nm) contacts) with
      | nil => exact absurd hs hsortne
      | cons a b => exact ⟨a, b, rfl⟩
    have hpfm := sortDesc_head hsort
    obtain ⟨l₁, l₂, hdec, hstrict, hmax⟩ := pickFirstMax_spec hpfm
    have htopmem : top ∈ scoredList (pyNormalize nm) contacts := by
      rw [hdec]
      exact List.mem_append.mpr (Or.inr (List.mem_cons_self _ _))
    obtain ⟨htc, _, _, htsc⟩ := scoredList_mem_iff.mp htopmem
    have hsearch : nameSearch contacts (some nm) emailHint =
        topHit top
          (((sortDesc (scoredList (pyNormalize nm) contacts)).take 5).map
            Prod.snd) := by
      unfold nameSearch
      rw [show truthyS (some nm) = true from by simp [truthyS, hnm]]
      simp only [if_true]
      rw [show (some nm).getD "" = nm from rfl, hsort]
    have hbcm : bestContactMatch contacts (some nm) emailHint =
        nameSearch contacts (some nm) emailHint := by
      unfold bestContactMatch
      cases emailHint with
      | none => simp [truthyS]
      | some em =>
        by_cases hem : em = ""
        · subst hem
          simp [truthyS]
        · rw [show truthyS (some em) = true from by simp [truthyS, hem]]
          simp only [if_true]
          rw [show (some em).getD "" = em from rfl, hskip em rfl hem]
    refine ⟨top, l₁, l₂, hdec, hstrict, hmax, htc, htsc, ?_, ?_, ?_,
      sortDesc_pairwise _, sortDesc_perm _⟩
    · rw [hbcm, hsearch]
    · rw [hbcm, hsearch]
      rfl
    · rw [hbcm, hsearch]
      rfl

/-- Witness for C3 at a concrete collection and the hint `"Sam"`. -/
theorem nameFuzzyScoringSelection_witness :
    ("Sam" ≠ "" ∧ scoredList (pyNormalize "Sam") contactsW3 ≠ []) ∧
    ∃ top l₁ l₂,
      scoredList (pyNormalize "Sam") contactsW3 = l₁ ++ top :: l₂ ∧
      (∀ q ∈ l₁, q.1 < top.1) ∧
      (∀ q ∈ scoredList (pyNormalize "Sam") contactsW3, q.1 ≤ top.1) ∧
      top.2 ∈ contactsW3 ∧
      top.1 = scoreOf (pyNormalize "Sam") (pyNormalize (contactNameStr top.2)) ∧
      bestContactMatch contactsW3 (some "Sam") none =
        topHit top
          (((sortDesc (scoredList (pyNormalize "Sam") contactsW3)).take 5).map
            Prod.snd) ∧
      (bestContactMatch contactsW3 (some "Sam") none).match_confidence = top.1 ∧
      (bestContactMatch contactsW3 (some "Sam") none).candidates =
        ((sortDesc (scoredList (pyNormalize "Sam") contactsW3)).take 5).map
          Prod.snd ∧
      (sortDesc (scoredList (pyNormalize "Sam") contactsW3)).Pairwise
        (fun p q => q.1 ≤ p.1) ∧
      List.Perm (sortDesc (scoredList (pyNormalize "Sam") contactsW3))
        (scoredList (pyNormalize "Sam") contactsW3) :=
  ⟨⟨by decide, by decide⟩,
   (nameFuzzyScoringSelection contactsW3 "Sam" none (by decide)
     (fun em h => nomatch h) (by decide)).2⟩

/-! ## C4: the submit gate -/

lemma if_iff_cond {α : Type} {b : Bool} {p : Prop} [Decidable p]
    (h : b = true ↔ p) (x y : α) : (if b then x else y) = if p then x else y := by
  by_cases hp : p
  · rw [if_pos (h.mpr hp), if_pos hp]
  · rw [if_neg (fun hb => hp (h.mp hb)), if_neg hp]

/-- The `missing` list of the gate, spelled with the semantic (null / zero /
empty) conditions rather than Python truthiness. -/
lemma submitRequired_eq (d : PaymentDraft) :
    submitRequired d =
      (if d.amount = none ∨ d.amount = some 0 then ["amount"] else []) ++
      (if d.currency = none ∨ d.currency = some "" then ["currency"] else []) ++
      (if (d.payee.email = none ∨ d.payee.email = some "") ∧
          (d.payee.name = none ∨ d.payee.name = some "")
        then ["payee"] else []) ++
      (if d.funding_method_id = none ∨ d.funding_method_id = some ""
        then ["funding_method_id"] else []) := by
  have e1 : (!truthyQ d.amount) = true ↔ (d.amount = none ∨ d.amount = some 0) := by
    rw [Bool.not_eq_true']
    exact truthyQ_eq_false_iff _
  have e2 : (!truthyS d.currency) = true ↔
      (d.currency = none ∨ d.currency = some "") := by
    rw [Bool.not_eq_true']
    exact truthyS_eq_false_iff _
  have e3 : (!truthyS d.payee.email && !truthyS d.payee.name) = true ↔
      ((d.payee.email = none ∨ d.payee.email = some "") ∧
       (d.payee.name = none ∨ d.payee.name = some "")) := by
    rw [Bool.and_eq_true, Bool.not_eq_true', Bool.not_eq_true',
      truthyS_eq_false_iff, truthyS_eq_false_iff]
  have e4 : (!truthyS d.funding_method_id) = true ↔
      (d.funding_method_id = none ∨ d.funding_method_id = some "") := by
    rw [Bool.not_eq_true']
    exact truthyS_eq_false_iff _
  unfold submitRequired
  rw [if_iff_cond e1, if_iff_cond e2, if_iff_cond e3, if_iff_cond e4]

/-- C4 (amended): the submit gate keys on Python falsiness, not only on
null-ness.  For every draft in which `amount` is null or zero, or `currency`
or `funding_method_id` is null or empty, or both `payee.email` and
`payee.name` are null or empty, submit fails with a `MISSING_FIELDS` error
whose details list exactly the required fields that are falsy (in the order
amount, currency, payee, funding_method_id), and `create_payment` is not
invoked. -/
theorem submitMissingFieldsGate {ρ : Type} (create : List (String × PVal) → ρ)
    (d : PaymentDraft)
    (h : (d.amount = none ∨ d.amount = some 0) ∨
         (d.currency = none ∨ d.currency = some "") ∨
         ((d.payee.email = none ∨ d.payee.email = some "") ∧
          (d.payee.name = none ∨ d.payee.name = some "")) ∨
         (d.funding_method_id = none ∨ d.funding_method_id = some "")) :
    (submitPayment create d).1 =
      .error (.missingFields (
        (if d.amount = none ∨ d.amount = some 0 then ["amount"] else []) ++
        (if d.currency = none ∨ d.currency = some "" then ["currency"] else []) ++
        (if (d.payee.email = none ∨ d.payee.email = some "") ∧
            (d.payee.name = none ∨ d.payee.name = some "")
          then ["payee"] else []) ++
        (if d.funding_method_id = none ∨ d.funding_method_id = some ""
          then ["funding_method_id"] else []))) ∧
    (submitPayment create d).2 = [] := by
  have hne : submitRequired d ≠ [] := by
    rw [submitRequired_eq]
    rcases h with h | h | h | h <;>
      simp [h, List.append_eq_nil]
  have hfalse : (submitRequired d).isEmpty = false := by
    cases hc : submitRequired d with
    | nil => exact absurd hc hne
    | cons a t => rfl
  constructor
  · unfold submitPayment
    rw [hfalse]
    simp only [Bool.false_eq_true, if_false]
    rw [submitRequired_eq]
  · unfold submitPayment
    rw [hfalse]
    simp

/-- Witness for C4 (amended): a draft whose only falsy required field is
`currency` is rejected with `missing = ["currency"]` and no call is made. -/
theorem submitMissingFieldsGate_witness :
    (draftC4W.currency = none ∨ draftC4W.currency = some "") ∧
    (submitPayment (fun p => p) draftC4W).1 =
      .error (.missingFields ["currency"]) ∧
    (submitPayment (fun p => p) draftC4W).2 = [] := by
  have h := submitMissingFieldsGate (fun p => p) draftC4W
    (Or.inr (Or.inl (Or.inl rfl)))
  refine ⟨Or.inl rfl, ?_, h.2⟩
  rw [h.1]
  congr 1

/-- C4 counterexample: a draft whose only *unset* (null) required field is
`currency` — its `amount` is set, to `0.0` — is rejected with
`missing = ["amount", "currency"]`, not `["currency"]` as enumerating
exactly the unset fields would demand. -/
theorem submitMissingFields_counterexample :
    draftC4.amount = some 0 ∧ draftC4.amount ≠ none ∧
    draftC4.currency = none ∧
    draftC4.payee.name = some "Sam" ∧
    draftC4.funding_method_id = some "fm_1" ∧
    (submitPayment (fun p => p) draftC4).1 =
      .error (.missingFields ["amount", "currency"]) ∧
    (["amount", "currency"] : List String) ≠ ["currency"] := by
  decide

/-! ## C5: scheduling a malformed timestamp -/

/-- C5 (amended): for every `run_at_utc` whose Z-normalized form does not
parse, the schedule tool returns a failure envelope with the generic
`UNHANDLED` code — the `ValueError` raised by the validation at the top of
the store's `create` propagates to the tool's generic handler, there being
no dedicated malformed-timestamp error — and while the store collaborator
itself is invoked, the failure occurs before any database write. -/
theorem scheduleMalformedTimestamp (fromiso : String → Option Unit)
    (rowid : Nat) (d : PaymentDraft) (s : String)
    (h : fromiso (zReplace s) = none) :
    paymentSchedule fromiso rowid d s =
      (.fail "UNHANDLED" "Unhandled error scheduling payment.",
       { createCalls := [s], inserts := [] }) := by
  unfold paymentSchedule sqliteScheduleCreate
  rw [h]

/-- Witness for C5 (amended) at the concrete input `"not-a-date"` with the
executable `fromisoformat` model. -/
theorem scheduleMalformedTimestamp_witness :
    pyFromIso (zReplace "not-a-date") = none ∧
    paymentSchedule pyFromIso 1 draftSched "not-a-date" =
      (.fail "UNHANDLED" "Unhandled error scheduling payment.",
       { createCalls := ["not-a-date"], inserts := [] }) :=
  ⟨by decide, scheduleMalformedTimestamp pyFromIso 1 draftSched "not-a-date"
    (by decide)⟩

/-- C5 counterexample: on `"not-a-date"` the failure envelope carries the
generic `UNHANDLED` code — there is no malformed-timestamp code — and the
schedule store's `create` collaborator *is* invoked (though nothing is
inserted), contradicting "fails with a malformed-timestamp error ... before
any persistence call to the schedule store". -/
theorem scheduleMalformed_counterexample :
    (paymentSchedule pyFromIso 1 draftSched "not-a-date").1 =
      .fail "UNHANDLED" "Unhandled error scheduling payment." ∧
    (paymentSchedule pyFromIso 1 draftSched "not-a-date").2.createCalls =
      ["not-a-date"] ∧
    (paymentSchedule pyFromIso 1 draftSched "not-a-date").2.inserts = [] ∧
    "UNHANDLED" ≠ "MALFORMED_TIMESTAMP" ∧
    (["not-a-date"] : List String) ≠ [] := by
  decide

/-! ## C6: the command parser raises -/

/-- C6 (code bug): `parse_payment_command("Pay $5 FOR lunch")` raises
`IndexError`: the containment check runs on the lowercased command, but
`command.split(" for ", 1)` runs on the original string, which contains no
lowercase `" for "`, so the split returns a single part and `[1]` is out of
range.  The claim (and the spec's "Never raises") say this cannot happen. -/
theorem parseCommandRaises :
    parsePaymentCommand "Pay $5 FOR lunch" = .error .indexError := by
  decide

/-! ## C7: invoice / command merge precedence -/

/-- C7 (amended): when both an invoice and a command are given, the merge is
by Python truthiness: for each of amount, payee name and purpose, the
invoice's value is kept when it is truthy (non-null, non-zero, non-empty),
and the parsed command's value is used otherwise; the payee email comes from
the invoice alone. -/
theorem invoiceCommandMerge (env : PrepEnv) (inv : ExtractedInvoice)
    (cmd : String) (hint : Option String) (parsed : ParsedCommand)
    (hproc : inv.processable = true) (hcmd : cmd ≠ "")
    (hp : parsePaymentCommand cmd = .ok parsed)
    (hh : ∀ em, isOkE (env.history em) = true) :
    ∃ d, (preparePayment env (some cmd) (some inv) hint).1 = .ok d ∧
      d.amount = pyOrQ inv.amount parsed.amount ∧
      d.payee = bestContactMatch env.contacts
        (pyOrS inv.payeeName parsed.payee_name) inv.payeeEmail ∧
      d.purpose =
        (if !truthyS (pyOrS inv.purpose parsed.purpose)
         then some "Invoice payment" else pyOrS inv.purpose parsed.purpose) := by
  unfold preparePayment
  rw [show (!truthyS (some cmd) && (some inv).isNone) = false from by
    simp [truthyS, hcmd]]
  simp only [Bool.false_eq_true, if_false]
  rw [show (!inv.processable) = false from by rw [hproc]; rfl]
  simp only [Bool.false_eq_true, if_false]
  unfold mergeCommand
  rw [show truthyS (some cmd) = true from by simp [truthyS, hcmd]]
  simp only [if_true]
  rw [show (some cmd).getD "" = cmd from rfl, hp]
  show ∃ d, (prepareRest env (pyOrS inv.payeeName parsed.payee_name)
      inv.payeeEmail (pyOrQ inv.amount parsed.amount) inv.currency
      (pyOrS inv.purpose parsed.purpose) hint).1 = Except.ok d ∧
    d.amount = pyOrQ inv.amount parsed.amount ∧
    d.payee = bestContactMatch env.contacts
      (pyOrS inv.payeeName parsed.payee_name) inv.payeeEmail ∧
    d.purpose =
      (if !truthyS (pyOrS inv.purpose parsed.purpose)
       then some "Invoice payment" else pyOrS inv.purpose parsed.purpose)
  unfold prepareRest
  cases hc : histCall env (pyOrS inv.payeeName parsed.payee_name)
      inv.payeeEmail with
  | error e =>
    exfalso
    unfold histCall at hc
    by_cases ht : truthyS (bestContactMatch env.contacts
        (pyOrS inv.payeeName parsed.payee_name) inv.payeeEmail).email = true
    · rw [if_pos ht] at hc
      have hg := hh ((bestContactMatch env.contacts
        (pyOrS inv.payeeName parsed.payee_name) inv.payeeEmail).email.getD "")
      rw [hc] at hg
      exact Bool.noConfusion hg
    · rw [if_neg ht] at hc
      exact Except.noConfusion hc
  | ok pref =>
    exact ⟨prepareDraft env (pyOrS inv.payeeName parsed.payee_name)
      inv.payeeEmail (pyOrQ inv.amount parsed.amount) inv.currency
      (pyOrS inv.purpose parsed.purpose) hint pref, rfl, rfl, rfl, rfl⟩

/-- Witness for C7 (amended) at a concrete invoice/command pair: the
invoice's truthy purpose survives, the command fills the unset amount. -/
theorem invoiceCommandMerge_witness :
    ({ processable := true, purpose := some "rent"
       payeeEmail := some "z@x.com" } : ExtractedInvoice).processable = true ∧
    parsePaymentCommand "pay $7 to Al" =
      .ok { amount := some (mkRat 7 1), payee_name := some "Al"
            purpose := none } ∧
    isOkE (envW.history "z@x.com") = true ∧
    ∃ d, (preparePayment envW (some "pay $7 to Al")
        (some { processable := true, purpose := some "rent"
                payeeEmail := some "z@x.com" }) none).1 = .ok d ∧
      d.amount = pyOrQ none (some (mkRat 7 1)) ∧
      d.payee = bestContactMatch envW.contacts
        (pyOrS none (some "Al")) (some "z@x.com") ∧
      d.purpose =
        (if !truthyS (pyOrS (some "rent") none)
         then some "Invoice payment" else pyOrS (some "rent") none) :=
  ⟨rfl, by decide, rfl,
   invoiceCommandMerge envW
     { processable := true, purpose := some "rent", payeeEmail := some "z@x.com" }
     "pay $7 to Al" none
     { amount := some (mkRat 7 1), payee_name := some "Al", purpose := none }
     rfl (by decide) (by decide) (fun em => rfl)⟩

/-- C7 counterexample: an invoice that *sets* its amount — to `0.0` — does
not take precedence: the command's parsed amount (`50.0`) lands in the
draft, because the merge tests Python truthiness rather than unset-ness. -/
theorem invoicePrecedence_counterexample :
    invZero.amount = some 0 ∧
    Except.map PaymentDraft.amount
      (preparePayment envW (some "Pay $50 to Sam") (some invZero) none).1 =
      .ok (some (mkRat 50 1)) ∧
    (mkRat 50 1 : ℚ) = 50 ∧ ((mkRat 50 1 : ℚ) ≠ 0) :=
  ⟨rfl, by decide, by rw [Rat.mkRat_one]; norm_num, by decide⟩

/-! ## C8: the history lookup -/

lemma prepareDraft_payee (env : PrepEnv) (pn pe : Option String)
    (a : Option ℚ) (c0 p0 hint pref : Option String) :
    (prepareDraft env pn pe a c0 p0 hint pref).payee =
      bestContactMatch env.contacts pn pe := rfl

lemma prepareRest_ok_log {env : PrepEnv} {pn pe : Option String}
    {a : Option ℚ} {c0 p0 hint : Option String} {d : PaymentDraft}
    {log : List String}
    (h : prepareRest env pn pe a c0 p0 hint = (.ok d, log)) :
    log = if truthyS d.payee.email then [d.payee.email.getD ""] else [] := by
  unfold prepareRest at h
  cases hc : histCall env pn pe with
  | error e =>
    rw [hc] at h
    replace h : ((Except.error (WorkflowError.pyExn e) :
        Except WorkflowError PaymentDraft), histLogOf env pn pe) =
        (.ok d, log) := h
    exact Except.noConfusion (congrArg Prod.fst h)
  | ok pref =>
    rw [hc] at h
    replace h : ((Except.ok (prepareDraft env pn pe a c0 p0 hint pref) :
        Except WorkflowError PaymentDraft), histLogOf env pn pe) =
        (.ok d, log) := h
    rw [Prod.mk.injEq] at h
    obtain ⟨h1, h2⟩ := h
    rw [← h2, ← Except.ok.inj h1, prepareDraft_payee]
    rfl

lemma prepareRest_err {env : PrepEnv} {pn pe : Option String} {a : Option ℚ}
    {c0 p0 hint : Option String} {err : WorkflowError} {log : List String}
    (h : prepareRest env pn pe a c0 p0 hint = (.error err, log)) :
    ∃ em e, log = [em] ∧ env.history em = .error e ∧ err = .pyExn e := by
  unfold prepareRest at h
  cases hc : histCall env pn pe with
  | ok pref =>
    rw [hc] at h
    replace h : ((Except.ok (prepareDraft env pn pe a c0 p0 hint pref) :
        Except WorkflowError PaymentDraft), histLogOf env pn pe) =
        (.error err, log) := h
    exact Except.noConfusion (congrArg Prod.fst h)
  | error e =>
    rw [hc] at h
    replace h : ((Except.error (WorkflowError.pyExn e) :
        Except WorkflowError PaymentDraft), histLogOf env pn pe) =
        (.error err, log) := h
    rw [Prod.mk.injEq] at h
    obtain ⟨h1, h2⟩ := h
    by_cases ht : truthyS (bestContactMatch env.contacts pn pe).email = true
    · refine ⟨(bestContactMatch env.contacts pn pe).email.getD "", e,
        ?_, ?_, ?_⟩
      · rw [← h2]
        unfold histLogOf
        rw [if_pos ht]
      · unfold histCall at hc
        rw [if_pos ht] at hc
        exact hc
      · exact (Except.error.inj h1).symm
    · exfalso
      unfold histCall at hc
      rw [if_neg ht] at hc
      exact Except.noConfusion hc

lemma mergeCommand_log_ok {env : PrepEnv} {cmd pn pe : Option String}
    {a : Option ℚ} {c0 p0 hint : Option String} {d : PaymentDraft}
    {log : List String}
    (h : mergeCommand env cmd pn pe a c0 p0 hint = (.ok d, log)) :
    log = if truthyS d.payee.email then [d.payee.email.getD ""] else [] := by
  unfold mergeCommand at h
  split at h
  · split at h
    · exact Except.noConfusion (congrArg Prod.fst h)
    · exact prepareRest_ok_log h
  · exact prepareRest_ok_log h

lemma mergeCommand_err {env : PrepEnv} {cmd pn pe : Option String}
    {a : Option ℚ} {c0 p0 hint : Option String} {err : WorkflowError}
    {log : List String}
    (h : mergeCommand env cmd pn pe a c0 p0 hint = (.error err, log)) :
    log = [] ∨
      ∃ em e, log = [em] ∧ env.history em = .error e ∧ err = .pyExn e := by
  unfold mergeCommand at h
  split at h
  · split at h
    · exact Or.inl (congrArg Prod.snd h).symm
    · exact Or.inr (prepareRest_err h)
  · exact Or.inr (prepareRest_err h)

lemma preparePayment_log_ok {env : PrepEnv} {cmd : Option String}
    {inv : Option ExtractedInvoice} {hint : Option String} {d : PaymentDraft}
    {log : List String}
    (h : preparePayment env cmd inv hint = (.ok d, log)) :
    log = if truthyS d.payee.email then [d.payee.email.getD ""] else [] := by
  unfold preparePayment at h
  split at h
  · exact Except.noConfusion (congrArg Prod.fst h)
  · split at h
    · split at h
      · exact Except.noConfusion (congrArg Prod.fst h)
      · exact mergeCommand_log_ok h
    · exact mergeCommand_log_ok h

lemma preparePayment_err {env : PrepEnv} {cmd : Option String}
    {inv : Option ExtractedInvoice} {hint : Option String}
    {err : WorkflowError} {log : List String}
    (h : preparePayment env cmd inv hint = (.error err, log)) :
    log = [] ∨
      ∃ em e, log = [em] ∧ env.history em = .error e ∧ err = .pyExn e := by
  unfold preparePayment at h
  split at h
  · exact Or.inl (congrArg Prod.snd h).symm
  · split at h
    · split at h
      · exact Or.inl (congrArg Prod.snd h).symm
      · exact mergeCommand_err h
    · exact mergeCommand_err h

/-- C8 (amended): (i) the payment-history lookup is performed exactly when
the resolved payee carries a truthy email — a successful prepare run queried
the store with that email and no other, and a failing run either made no
lookup or made exactly one whose raised exception is the very error prepare
returns, so a raised lookup is *not* swallowed but propagates out of
prepare; (ii) in the MySQL store, a failure of the connection/query work
inside the `try`/`except` — as well as the no-row and NULL-column cases —
is mapped to `None` (fail-open), whether the store is enabled or not;
(iii) but the per-call `import mysql.connector` executes *outside* the
`try`/`except`: with the store enabled and the package missing the lookup
raises `ImportError` (a disabled store returns `None` before reaching the
import). -/
theorem historyLookupPropagation :
    (∀ (env : PrepEnv) (cmd : Option String) (inv : Option ExtractedInvoice)
        (hint : Option String),
      (match preparePayment env cmd inv hint with
       | (.ok d, log) =>
         log = if truthyS d.payee.email then [d.payee.email.getD ""] else []
       | (.error err, log) =>
         log = [] ∨
           ∃ em e, log = [em] ∧ env.history em = .error e ∧
             err = .pyExn e)) ∧
    (∀ enabled : Bool,
      mysqlLastFundingMethod enabled .failure = .ok none ∧
      mysqlLastFundingMethod enabled .noRow = .ok none ∧
      mysqlLastFundingMethod enabled (.row none) = .ok none) ∧
    mysqlLastFundingMethod true .importError = .error .importError ∧
    mysqlLastFundingMethod false .importError = .ok none := by
  refine ⟨?_, ?_, rfl, rfl⟩
  · intro env cmd inv hint
    cases hres : preparePayment env cmd inv hint with
    | mk r log =>
      cases r with
      | ok d => exact preparePayment_log_ok hres
      | error err => exact preparePayment_err hres
  · intro enabled
    cases enabled <;> exact ⟨rfl, rfl, rfl⟩

/-- C8 counterexample: with the MySQL store enabled but the
`mysql.connector` package missing, the per-call import raises before the
`try`/`except` is entered; the lookup *is* performed (the log records the
queried email `"sam@x.com"`) and prepare does not complete — the
`ImportError` propagates to the caller (surfacing as the generic `UNHANDLED`
error at the tool boundary), refuting the claim that any failure of the
lookup is swallowed and never propagated. -/
theorem historyLookup_counterexample :
    mysqlLastFundingMethod true DbOutcome.importError =
      .error PyExn.importError ∧
    (preparePayment envC8 none (some invC8) none).1 =
      .error (.pyExn .importError) ∧
    (preparePayment envC8 none (some invC8) none).2 = ["sam@x.com"] := by
  decide

/-! ## C9: funding-method selection -/

lemma firstFmId_spec (ms : List FundingMethod) :
    (∃ ms₁ m ms₂ s, ms = ms₁ ++ m :: ms₂ ∧ m.id = PyStr.val s ∧
        (∀ m' ∈ ms₁, ∀ t, m'.id ≠ PyStr.val t) ∧ firstFmId ms = some s) ∨
    ((∀ m ∈ ms, ∀ t, m.id ≠ PyStr.val t) ∧ firstFmId ms = none) := by
  induction ms with
  | nil => exact Or.inr ⟨by simp, rfl⟩
  | cons m rest ih =>
    cases hm : m.id with
    | val s =>
      refine Or.inl ⟨[], m, rest, s, rfl, hm, by simp, ?_⟩
      unfold firstFmId
      rw [hm]
    | absent =>
      rcases ih with ⟨ms₁, m', ms₂, s, hdec, hid, hpre, hfind⟩ | ⟨hall, hnone⟩
      · refine Or.inl ⟨m :: ms₁, m', ms₂, s, by rw [hdec]; rfl, hid, ?_, ?_⟩
        · intro x hx t
          rcases List.mem_cons.mp hx with hx | hx
          · rw [hx, hm]
            exact fun hc => PyStr.noConfusion hc
          · exact hpre x hx t
        · unfold firstFmId
          rw [hm]
          exact hfind
      · refine Or.inr ⟨?_, ?_⟩
        · intro x hx t
          rcases List.mem_cons.mp hx with hx | hx
          · rw [hx, hm]
            exact fun hc => PyStr.noConfusion hc
          · exact hall x hx t
        · unfold firstFmId
          rw [hm]
          exact hnone
    | null =>
      rcases ih with ⟨ms₁, m', ms₂, s, hdec, hid, hpre, hfind⟩ | ⟨hall, hnone⟩
      · refine Or.inl ⟨m :: ms₁, m', ms₂, s, by rw [hdec]; rfl, hid, ?_, ?_⟩
        · intro x hx t
          rcases List.mem_cons.mp hx with hx | hx
          · rw [hx, hm]
            exact fun hc => PyStr.noConfusion hc
          · exact hpre x hx t
        · unfold firstFmId
          rw [hm]
          exact hfind
      · refine Or.inr ⟨?_, ?_⟩
        · intro x hx t
          rcases List.mem_cons.mp hx with hx | hx
          · rw [hx, hm]
            exact fun hc => PyStr.noConfusion hc
          · exact hall x hx t
        · unfold firstFmId
          rw [hm]
          exact hnone

/-- C9 (amended): `_pick_funding_method_id` returns the preferred id when it
is non-null, *non-empty*, and present among the methods' stringified ids;
otherwise it returns the id of the first method in input order whose `id` is
not null; otherwise null (and null is not an error — the caller records it
as a missing field). -/
theorem fundingMethodSelection (ms : List FundingMethod) (p : Option String) :
    ((∃ s, p = some s ∧ s ≠ "" ∧ s ∈ fmIds ms) →
      pickFundingMethodId ms p = p) ∧
    ((∀ s, p = some s → s ≠ "" → s ∉ fmIds ms) →
      ((∃ ms₁ m ms₂ s, ms = ms₁ ++ m :: ms₂ ∧ m.id = PyStr.val s ∧
          (∀ m' ∈ ms₁, ∀ t, m'.id ≠ PyStr.val t) ∧
          pickFundingMethodId ms p = some s) ∨
        ((∀ m ∈ ms, ∀ t, m.id ≠ PyStr.val t) ∧
          pickFundingMethodId ms p = none))) := by
  constructor
  · rintro ⟨s, rfl, hs, hmem⟩
    unfold pickFundingMethodId
    rw [show (truthyS (some s) && (fmIds ms).contains ((some s).getD "")) = true
      from by
        rw [Bool.and_eq_true]
        exact ⟨by simp [truthyS, hs], List.elem_eq_true_of_mem hmem⟩]
    rw [if_pos rfl]
  · intro hnot
    have hcond : (truthyS p && (fmIds ms).contains (p.getD "")) = false := by
      cases p with
      | none => rfl
      | some s =>
        by_cases hs : s = ""
        · subst hs
          rfl
        · rw [Bool.and_eq_false_iff]
          right
          cases hc : (fmIds ms).contains ((some s).getD "") with
          | false => rfl
          | true =>
            exact absurd (List.mem_of_elem_eq_true hc) (hnot s rfl hs)
    have hpick : pickFundingMethodId ms p = firstFmId ms := by
      unfold pickFundingMethodId
      rw [hcond]
      rfl
    rw [hpick]
    exact firstFmId_spec ms

/-- Witness for C9 (amended): a non-empty preferred id present among the
methods' ids is returned. -/
theorem fundingMethodSelection_witness :
    ((some "fm_2" : Option String) = some "fm_2" ∧ "fm_2" ≠ "" ∧
      "fm_2" ∈ fmIds [⟨.val "fm_1"⟩, ⟨.val "fm_2"⟩]) ∧
    pickFundingMethodId [⟨.val "fm_1"⟩, ⟨.val "fm_2"⟩] (some "fm_2") =
      some "fm_2" :=
  ⟨⟨rfl, by decide, by decide⟩,
   (fundingMethodSelection [⟨.val "fm_1"⟩, ⟨.val "fm_2"⟩] (some "fm_2")).1
     ⟨"fm_2", rfl, by decide, by decide⟩⟩

/-- C9 counterexample: the preferred id `""` is non-null and present among
the methods' ids (the second method's id is the empty string), yet selection
falls through to the first method's id, because the code tests Python
truthiness (`if preferred_id`), under which `""` is falsy. -/
theorem fundingMethodSelection_counterexample :
    "" ∈ fmIds fmsCX ∧
    pickFundingMethodId fmsCX (some "") = some "a" ∧
    (some "a" : Option String) ≠ some "" := by
  decide

/-! ## C10: the submitted payload is the proposed payload with four keys
rebuilt -/

lemma dictGet_dictSet_same (m : List (String × PVal)) (k : String) (v : PVal) :
    dictGet (dictSet m k v) k = some v := by
  induction m with
  | nil => simp [dictSet, dictGet]
  | cons e rest ih =>
    unfold dictSet
    by_cases h : e.1 = k
    · rw [if_pos h]
      simp [dictGet]
    · rw [if_neg h]
      show dictGet _ k = some v
      unfold dictGet
      rw [if_neg h]
      exact ih

lemma dictGet_dictSet_ne (m : List (String × PVal)) (k : String) (v : PVal)
    (k' : String) (h : k' ≠ k) :
    dictGet (dictSet m k v) k' = dictGet m k' := by
  induction m with
  | nil =>
    show dictGet [(k, v)] k' = dictGet [] k'
    unfold dictGet
    rw [if_neg (fun hc => h hc.symm)]
    rfl
  | cons e rest ih =>
    unfold dictSet
    by_cases he : e.1 = k
    · rw [if_pos he]
      show dictGet _ k' = dictGet _ k'
      unfold dictGet
      rw [if_neg (fun hc => h hc.symm),
        if_neg (fun hc => h (he.symm.trans hc).symm)]
    · rw [if_neg he]
      show dictGet _ k' = dictGet _ k'
      unfold dictGet
      by_cases he' : e.1 = k'
      · rw [if_pos he', if_pos he']
      · rw [if_neg he', if_neg he']
        exact ih

/-- C10: on a successful submit the payload sent to `create_payment` is the
draft's `proposed_payment_payload` with only the `amount`, `fundingMethod`,
`purpose` and `recipient` entries rebuilt from the draft's current fields
(the rebuilt purpose falls back to the proposed payload's entry when the
draft's purpose is falsy); every other entry — `accountId`, `description`,
`idempotencyKey`, and any extra keys — is passed through unchanged, so
editing `draft.idempotency_key` after preparation does not change the
submitted `idempotencyKey`. -/
theorem submitPayloadFrame {ρ : Type} (create : List (String × PVal) → ρ)
    (d : PaymentDraft) (h : submitRequired d = []) :
    ∃ P, (submitPayment create d).1 = .ok (create P) ∧
      (submitPayment create d).2 = [P] ∧
      dictGet P "amount" = some (.amountObj d.amount d.currency) ∧
      dictGet P "fundingMethod" = some (.fundingObj d.funding_method_id) ∧
      dictGet P "purpose" = some
        (if truthyS d.purpose then .str (d.purpose.getD "")
         else (dictGet d.proposed_payment_payload "purpose").getD .nullV) ∧
      dictGet P "recipient" = some
        (.recipSubmit d.payee.email d.payee.name d.payee.contact_id) ∧
      (∀ k, k ≠ "amount" → k ≠ "fundingMethod" → k ≠ "purpose" →
        k ≠ "recipient" →
        dictGet P k = dictGet d.proposed_payment_payload k) ∧
      (∀ k', dictGet (buildSubmitPayload { d with idempotency_key := k' })
          "idempotencyKey" =
        dictGet d.proposed_payment_payload "idempotencyKey") := by
  have hEmpty : (submitRequired d).isEmpty = true := by
    rw [h]
    rfl
  have hsub : submitPayment create d =
      (.ok (create (buildSubmitPayload d)), [buildSubmitPayload d]) := by
    unfold submitPayment
    rw [hEmpty]
    rfl
  have hframe : ∀ k, k ≠ "amount" → k ≠ "fundingMethod" → k ≠ "purpose" →
      k ≠ "recipient" →
      dictGet (buildSubmitPayload d) k = dictGet d.proposed_payment_payload k := by
    intro k h1 h2 h3 h4
    simp only [buildSubmitPayload]
    rw [dictGet_dictSet_ne _ _ _ _ h4, dictGet_dictSet_ne _ _ _ _ h3,
      dictGet_dictSet_ne _ _ _ _ h2, dictGet_dictSet_ne _ _ _ _ h1]
  refine ⟨buildSubmitPayload d, by rw [hsub], by rw [hsub], ?_, ?_, ?_, ?_,
    hframe, ?_⟩
  · simp only [buildSubmitPayload]
    rw [dictGet_dictSet_ne _ _ _ _ (by decide), dictGet_dictSet_ne _ _ _ _
      (by decide), dictGet_dictSet_ne _ _ _ _ (by decide), dictGet_dictSet_same]
  · simp only [buildSubmitPayload]
    rw [dictGet_dictSet_ne _ _ _ _ (by decide), dictGet_dictSet_ne _ _ _ _
      (by decide), dictGet_dictSet_same]
  · simp only [buildSubmitPayload]
    rw [dictGet_dictSet_ne _ _ _ _ (by decide), dictGet_dictSet_same,
      dictGet_dictSet_ne _ _ _ _ (by decide), dictGet_dictSet_ne _ _ _ _
      (by decide)]
  · simp only [buildSubmitPayload]
    rw [dictGet_dictSet_same]
  · intro k'
    have hsame : buildSubmitPayload { d with idempotency_key := k' } =
        buildSubmitPayload d := rfl
    rw [hsame]
    exact hframe "idempotencyKey" (by decide) (by decide) (by decide) (by decide)

/-- Witness for C10 at a concrete gate-passing draft whose proposed payload
holds an older idempotency key and an extra entry, while the draft's own
`idempotency_key` has been edited. -/
theorem submitPayloadFrame_witness :
    submitRequired draftC10 = [] ∧
    ∃ P, (submitPayment (fun p => p) draftC10).1 = .ok P ∧
      (submitPayment (fun p => p) draftC10).2 = [P] ∧
      dictGet P "amount" =
        some (.amountObj draftC10.amount draftC10.currency) ∧
      dictGet P "fundingMethod" =
        some (.fundingObj draftC10.funding_method_id) ∧
      dictGet P "purpose" = some
        (if truthyS draftC10.purpose then .str (draftC10.purpose.getD "")
         else (dictGet draftC10.proposed_payment_payload "purpose").getD
           .nullV) ∧
      dictGet P "recipient" = some
        (.recipSubmit draftC10.payee.email draftC10.payee.name
          draftC10.payee.contact_id) ∧
      (∀ k, k ≠ "amount" → k ≠ "fundingMethod" → k ≠ "purpose" →
        k ≠ "recipient" →
        dictGet P k = dictGet draftC10.proposed_payment_payload k) ∧
      (∀ k',
        dictGet (buildSubmitPayload { draftC10 with idempotency_key := k' })
          "idempotencyKey" =
        dictGet draftC10.proposed_payment_payload "idempotencyKey") :=
  ⟨by decide, submitPayloadFrame (fun p => p) draftC10 (by decide)⟩

end VeemInvoice
